import Mathlib

/-!
# celestia-peer-checker: peers per autonomous system

A shallow embedding of `main.go`.  The program fetches the peer list of a node,
resolves every peer address to an autonomous-system record, tallies the peers
per ASN in a map, turns the map into a slice of `ASNInfo` sorted by descending
count, and hands the slice to a bar chart.

Modelling conventions.

* A Go `string` is a sequence of bytes: `len` counts bytes and `s[:n]` cuts
  bytes.  `GoString` is `List UInt8`; `str` gives the bytes of a literal.
* `uint32` ASN values are only compared and copied, never computed with, so
  they are natural numbers.  `int` counters are integers; a counter is
  incremented once per element of a slice and the length of a slice is itself
  an `int`, so the increments cannot wrap.
* A run-time panic and `log.Fatalf` are results of type `Failure`.
* The network (the ASN lookup service) is an explicit state `σ` threaded
  through the calls; each call returns its result and the next state, so two
  lookups of one address may answer differently.
* `range` over a Go map visits every entry exactly once in an unspecified
  order: the visiting order is a parameter, constrained to be a permutation
  of the entries of the map.
* `sort.Slice` is the standard library's sort (not stable).  It is embedded
  as the insertion sort the library runs on short slices.  The general results
  on the aggregate rest on two facts only, that the output is a rearrangement
  of the input and that it is ordered by the comparison, which is what the
  library promises at every length.
* `float64(n)` is the integer value of the resulting double: `n` rounded to
  53 significant bits, ties to even.
* Console output (`fmt.Println`, `fmt.Printf`) and the event loop that waits
  for the quit key after `ui.Render` change none of the values below and are
  left out; so is the HTTP exchange of `QueryRPC`, whose decoded peer list is
  the input `peers`.
-/

namespace PeerChecker

/-! ## Data model -/

/-- Go `string`: an immutable sequence of bytes. -/
abbrev GoString := List UInt8

/-- The bytes (UTF-8) of a string literal of the source. -/
def str (s : String) : GoString := s.toUTF8.data.toList

/-- Abnormal termination: a run-time panic or `log.Fatalf`. -/
inductive Failure where
  | panic (msg : GoString)
  | fatal (msg : GoString)
deriving DecidableEq, Repr

/-- Record `iptoasn.IP` returned by the lookup library; `main.go` reads the
fields `ASNum` (uint32) and `ASName` only. -/
structure IP where
  ASNum : Nat
  ASName : GoString
deriving DecidableEq, Repr

/-- Element of `NetInfoResponse.Result.Peers`; `main.go` reads `RemoteIP` only. -/
structure Peer where
  RemoteIP : GoString
deriving DecidableEq, Repr

/-- Struct `ASNInfo` (main.go lines 90-94). -/
structure ASNInfo where
  ASN : Nat
  ASName : GoString
  Count : Int
deriving DecidableEq, Repr

/-- Go `map[uint32]int` as its entries, each key once, in insertion order. -/
abbrev ASNCountMap := List (Nat × Int)

/-- Fields of `widgets.BarChart` that `GenerateBarChart` sets.  `Data` holds the
integer value of each `float64`. -/
structure BarChart where
  Data : List Int
  Labels : List GoString
  Title : GoString
  Rect : Int × Int × Int × Int
  BarWidth : Int
deriving DecidableEq, Repr

deriving instance DecidableEq for Except

/-! ## getASName (lines 96-103) -/

/-- Function `getASName`: the name of the first element of `ipList` whose
`ASNum` is `asn`, or "Unknown" when the loop ends without a match. -/
def getASName : List IP → Nat → GoString
  | [], _ => str "Unknown"
  | ip :: rest, asn => if ip.ASNum == asn then ip.ASName else getASName rest asn

/-! ## The RPC URL (lines 111-114) -/

/-- Process environment once `godotenv.Load` has run: the value of each
variable that is set. -/
abbrev Environ := GoString → Option GoString

/-- Function `os.Getenv`: the value of the variable, empty when it is not set. -/
def Getenv (env : Environ) (key : GoString) : GoString :=
  (env key).getD []

/-- The `rpcURL` that `main` passes to `QueryRPC` (lines 111-114). -/
def rpcURL (env : Environ) : GoString :=
  let rpcURL := Getenv env (str "RPC_URL") ++ str "/net_info"
  if rpcURL == [] then str "http://localhost:26657/net_info" else rpcURL

/-! ## Resolving the peers (lines 122-131) -/

/-- The loop of lines 124-131: `queryASN` on each peer in order, appending the
record to `ipList` on success and dropping the peer on error. -/
def resolveLoop {σ : Type} (LookupIP : σ → GoString → Except GoString IP × σ) :
    σ → List Peer → List IP → List IP × σ
  | w, [], ipList => (ipList, w)
  | w, peer :: rest, ipList =>
    match LookupIP w peer.RemoteIP with
    | (Except.error _, w') => resolveLoop LookupIP w' rest ipList
    | (Except.ok asn, w') => resolveLoop LookupIP w' rest (ipList ++ [asn])

/-- The `ipList` of `main` after the loop, starting from the nil slice. -/
def resolvePeers {σ : Type} (LookupIP : σ → GoString → Except GoString IP × σ)
    (w : σ) (peers : List Peer) : List IP :=
  (resolveLoop LookupIP w peers []).1

/-- What each call of `queryASN` returned, one result per peer, in order. -/
def lookupOutcomes {σ : Type} (LookupIP : σ → GoString → Except GoString IP × σ) :
    σ → List Peer → List (Except GoString IP)
  | _, [] => []
  | w, peer :: rest =>
    (LookupIP w peer.RemoteIP).1 :: lookupOutcomes LookupIP (LookupIP w peer.RemoteIP).2 rest

/-- Whether a lookup returned a record (`err == nil`). -/
def succeeded : Except GoString IP → Bool
  | Except.ok _ => true
  | Except.error _ => false

/-! ## Counting per ASN (lines 132-135) -/

/-- Statement `m[k]++` on a map: the entry of `k` goes up by one; an absent key
starts from the zero value. -/
def mapIncr : ASNCountMap → Nat → ASNCountMap
  | [], k => [(k, 0 + 1)]
  | (k', v) :: rest, k =>
    if k' == k then (k', v + 1) :: rest else (k', v) :: mapIncr rest k

/-- Expression `m[k]`: the value stored, the zero value for an absent key. -/
def mapGet : ASNCountMap → Nat → Int
  | [], _ => 0
  | (k', v) :: rest, k => if k' == k then v else mapGet rest k

/-- The map `ipASNCount` after the loop of lines 133-135. -/
def countASNs (ipList : List IP) : ASNCountMap :=
  ipList.foldl (fun m ip => mapIncr m ip.ASNum) []

/-! ## Building and sorting the aggregate (lines 137-150) -/

/-- The loop of lines 139-146 over the map entries in the order `visited`:
one `ASNInfo` appended per entry. -/
def collectASNInfo (ipList : List IP) (visited : List (Nat × Int)) : List ASNInfo :=
  visited.foldl
    (fun asnInfoList kv => asnInfoList ++ [ASNInfo.mk kv.1 (getASName ipList kv.1) kv.2]) []

/-- The comparison handed to `sort.Slice` (line 149). -/
def lessCount (a b : ASNInfo) : Bool := decide (a.Count > b.Count)

/-- Inner loop of the insertion sort, `for j := i; j > a && less(j, j-1); j--`
swapping `j` and `j-1`: the element `x` at index `i` moves left past every
neighbour it is less than.  The elements before `x` are given nearest first,
and so is the result. -/
def sinkLeft {α : Type} (less : α → α → Bool) (x : α) : List α → List α
  | [] => [x]
  | p :: ps => if less x p then p :: sinkLeft less x ps else x :: p :: ps

/-- Function `sort.Slice` of the standard library, as the insertion sort
`for i := a + 1; i < b; i++` the library applies to short slices. -/
def sortSlice {α : Type} (less : α → α → Bool) (xs : List α) : List α :=
  (xs.foldl (fun sortedRev x => sinkLeft less x sortedRev) []).reverse

/-- The slice `asnInfoList` of `main` after line 150, for the resolved peers
`ipList` and the order `visited` in which `range` walked the map. -/
def aggregate (ipList : List IP) (visited : List (Nat × Int)) : List ASNInfo :=
  sortSlice lessCount (collectASNInfo ipList visited)

/-! ## The chart (lines 184-222) -/

/-- Slice expression `s[:hi]`: panics when `hi` exceeds `len(s)`. -/
def sliceTo (s : GoString) (hi : Nat) : Except Failure GoString :=
  if hi ≤ s.length then Except.ok (s.take hi)
  else Except.error (Failure.panic (str "slice bounds out of range"))

/-- Function `safesubstr` (lines 217-222). -/
def safesubstr (s : GoString) : Except Failure GoString :=
  if s.length > 10 then
    match sliceTo s 7 with
    | Except.ok head => Except.ok (head ++ str "...")
    | Except.error e => Except.error e
  else Except.ok s

/-- Number of binary digits of `m`, for `m` below `2^fuel`. -/
def bitLen : Nat → Nat → Nat
  | 0, _ => 0
  | fuel + 1, m => if m = 0 then 0 else bitLen fuel (m / 2) + 1

/-- Magnitude of a double converted from the magnitude `m` of an `int`
(at most `2^63`): the number itself below `2^53`, else rounded to 53
significant bits, ties to even. -/
def roundFloat64 (m : Nat) : Nat :=
  if m < 2 ^ 53 then m
  else
    let e := bitLen 64 m - 53
    let q := m / 2 ^ e
    let r := m % 2 ^ e
    let half := 2 ^ (e - 1)
    (if half < r ∨ (r = half ∧ q % 2 = 1) then q + 1 else q) * 2 ^ e

/-- Conversion `float64(n)` of an `int`, as the integer value of the double. -/
def float64 (n : Int) : Int :=
  if n < 0 then -((roundFloat64 n.natAbs : Nat) : Int) else ((roundFloat64 n.natAbs : Nat) : Int)

/-- The loop of lines 192-196: one count and one label appended per entry. -/
def chartLoop : List ASNInfo → List Int → List GoString →
    Except Failure (List Int × List GoString)
  | [], ASNCount, ASName => Except.ok (ASNCount, ASName)
  | asn :: rest, ASNCount, ASName =>
    match safesubstr asn.ASName with
    | Except.ok label => chartLoop rest (ASNCount ++ [float64 asn.Count]) (ASName ++ [label])
    | Except.error e => Except.error e

/-- Function `GenerateBarChart` up to the chart handed to `ui.Render`
(lines 184-203); `uiInit` is what `ui.Init()` returned. -/
def GenerateBarChart (uiInit : Except GoString Unit) (asnInfoList : List ASNInfo) :
    Except Failure BarChart :=
  match uiInit with
  | Except.error err => Except.error (Failure.fatal (str "failed to initialize termui: " ++ err))
  | Except.ok _ =>
    match chartLoop asnInfoList [] [] with
    | Except.ok (ASNCount, ASName) =>
      Except.ok (BarChart.mk ASNCount ASName (str "Peers per ASN Chart") (5, 25, 175, 50) 10)
    | Except.error e => Except.error e

/-! ## Vocabulary of the statements -/

/-- The element `ip` is the earliest element of `ipList` with ASN `a`. -/
def FirstWithASN (ipList : List IP) (a : Nat) (ip : IP) : Prop :=
  ∃ before after, ipList = before ++ ip :: after ∧ ip.ASNum = a ∧
    ∀ p ∈ before, p.ASNum ≠ a

/-- Number of resolved peers carrying ASN `a`. -/
def peersWithASN (ipList : List IP) (a : Nat) : Nat :=
  (ipList.filter (fun ip => ip.ASNum == a)).length

/-- Sum of the `Count` fields of a slice of `ASNInfo`. -/
def totalCount (asnInfoList : List ASNInfo) : Int :=
  (asnInfoList.map (fun e => e.Count)).sum

/-- The `ASNInfo` built from one map entry (lines 140-144). -/
def entryInfo (ipList : List IP) (kv : Nat × Int) : ASNInfo :=
  ASNInfo.mk kv.1 (getASName ipList kv.1) kv.2

/-- The record of a lookup that succeeded. -/
def resolved : Except GoString IP → Option IP
  | Except.ok ip => some ip
  | Except.error _ => none

/-- The keys of a map. -/
def mapKeys (m : ASNCountMap) : List Nat := m.map Prod.fst

/-- Sum of the values of a map. -/
def mapTotal (m : ASNCountMap) : Int := (m.map Prod.snd).sum

/-- The label `safesubstr` yields for the name `s`. -/
def labelOf (s : GoString) : GoString :=
  if s.length > 10 then s.take 7 ++ str "..." else s

/-! ## Sample data -/

def orgA : IP := IP.mk 100 (str "ExampleOrgLongName")

def orgB : IP := IP.mk 200 (str "Short")

/-- A lookup service that knows two addresses and fails on every other one. -/
def sampleLookup (w : Unit) (addr : GoString) : Except GoString IP × Unit :=
  if addr = str "10.0.0.1" then (Except.ok orgA, w)
  else if addr = str "10.0.0.2" then (Except.ok orgB, w)
  else (Except.error (str "lookup failed"), w)

def samplePeers : List Peer :=
  [Peer.mk (str "10.0.0.1"), Peer.mk (str "192.0.2.9"), Peer.mk (str "10.0.0.2"),
   Peer.mk (str "10.0.0.1")]

/-- Three resolved peers, the first and the last of one ASN under two names. -/
def renamedPeers : List IP :=
  [IP.mk 100 (str "First"), IP.mk 200 (str "Other"), IP.mk 100 (str "Second")]

/-- One resolved peer whose lookup returned an empty name. -/
def namelessPeers : List IP := [IP.mk 100 []]

/-- A lookup service that fails on every address. -/
def failingLookup (w : Unit) (_addr : GoString) : Except GoString IP × Unit :=
  (Except.error (str "lookup failed"), w)

/-! ## Lemmas: the insertion sort -/

theorem sinkLeft_perm {α : Type} (less : α → α → Bool) (x : α) (l : List α) :
    (sinkLeft less x l).Perm (x :: l) := by
  induction l with
  | nil => exact List.Perm.refl _
  | cons p ps ih =>
    unfold sinkLeft
    split
    · exact (List.Perm.cons p ih).trans (List.Perm.swap x p ps)
    · exact List.Perm.refl _

theorem foldl_sinkLeft_perm {α : Type} (less : α → α → Bool) (xs acc : List α) :
    (xs.foldl (fun sortedRev x => sinkLeft less x sortedRev) acc).Perm (xs.reverse ++ acc) := by
  induction xs generalizing acc with
  | nil => simp
  | cons x xs ih =>
    simp only [List.foldl_cons, List.reverse_cons, List.append_assoc, List.singleton_append]
    exact (ih _).trans (List.Perm.append_left _ (sinkLeft_perm less x acc))

theorem sortSlice_perm {α : Type} (less : α → α → Bool) (xs : List α) :
    (sortSlice less xs).Perm xs := by
  unfold sortSlice
  refine (List.reverse_perm _).trans ?_
  have h := foldl_sinkLeft_perm less xs []
  simp only [List.append_nil] at h
  exact h.trans (List.reverse_perm xs)

theorem sinkLeft_pairwise {α : Type} (less : α → α → Bool)
    (hasymm : ∀ a b, less a b = true → less b a = false)
    (hntrans : ∀ a b c, less a b = false → less b c = false → less a c = false)
    (x : α) (l : List α) (hl : l.Pairwise (fun a b => less a b = false)) :
    (sinkLeft less x l).Pairwise (fun a b => less a b = false) := by
  induction l with
  | nil => simp [sinkLeft]
  | cons p ps ih =>
    rw [List.pairwise_cons] at hl
    unfold sinkLeft
    split
    · rename_i hlt
      rw [List.pairwise_cons]
      refine ⟨?_, ih hl.2⟩
      intro y hy
      have hy' : y = x ∨ y ∈ ps :=
        List.mem_cons.1 ((List.Perm.mem_iff (sinkLeft_perm less x ps)).1 hy)
      rcases hy' with hy' | hy'
      · subst hy'
        exact hasymm _ _ hlt
      · exact hl.1 y hy'
    · rename_i hnlt
      have hxp : less x p = false := by simpa using hnlt
      rw [List.pairwise_cons]
      refine ⟨?_, List.pairwise_cons.2 hl⟩
      intro y hy
      rw [List.mem_cons] at hy
      rcases hy with hy | hy
      · subst hy
        exact hxp
      · exact hntrans _ _ _ hxp (hl.1 y hy)

theorem sortSlice_pairwise {α : Type} (less : α → α → Bool)
    (hasymm : ∀ a b, less a b = true → less b a = false)
    (hntrans : ∀ a b c, less a b = false → less b c = false → less a c = false)
    (xs : List α) : (sortSlice less xs).Pairwise (fun a b => less b a = false) := by
  have key : ∀ (ys acc : List α), acc.Pairwise (fun a b => less a b = false) →
      (ys.foldl (fun sortedRev x => sinkLeft less x sortedRev) acc).Pairwise
        (fun a b => less a b = false) := by
    intro ys
    induction ys with
    | nil => intro acc h; simpa using h
    | cons y ys ih =>
      intro acc h
      simp only [List.foldl_cons]
      exact ih _ (sinkLeft_pairwise less hasymm hntrans y acc h)
  unfold sortSlice
  rw [List.pairwise_reverse]
  exact key xs [] List.Pairwise.nil

theorem lessCount_asymm (a b : ASNInfo) (h : lessCount a b = true) : lessCount b a = false := by
  simp only [lessCount, decide_eq_true_eq, decide_eq_false_iff_not] at *
  omega

theorem lessCount_ntrans (a b c : ASNInfo) (h1 : lessCount a b = false)
    (h2 : lessCount b c = false) : lessCount a c = false := by
  simp only [lessCount, decide_eq_false_iff_not] at *
  omega

/-! ## Lemmas: the aggregate as a rearrangement of the map -/

theorem collectASNInfo_eq_map (ipList : List IP) (visited : List (Nat × Int)) :
    collectASNInfo ipList visited = visited.map (entryInfo ipList) := by
  have key : ∀ (vs : List (Nat × Int)) (acc : List ASNInfo),
      vs.foldl (fun asnInfoList kv =>
        asnInfoList ++ [ASNInfo.mk kv.1 (getASName ipList kv.1) kv.2]) acc
        = acc ++ vs.map (entryInfo ipList) := by
    intro vs
    induction vs with
    | nil => intro acc; simp
    | cons v vs ih => intro acc; simp [ih, entryInfo]
  simpa [collectASNInfo] using key visited []

theorem aggregate_perm (ipList : List IP) (visited : List (Nat × Int))
    (h : visited.Perm (countASNs ipList)) :
    (aggregate ipList visited).Perm ((countASNs ipList).map (entryInfo ipList)) := by
  unfold aggregate
  rw [collectASNInfo_eq_map]
  exact (sortSlice_perm _ _).trans (h.map _)

theorem aggregate_pairwise (ipList : List IP) (visited : List (Nat × Int)) :
    (aggregate ipList visited).Pairwise (fun a b => b.Count ≤ a.Count) := by
  have h := sortSlice_pairwise lessCount lessCount_asymm lessCount_ntrans
    (collectASNInfo ipList visited)
  refine List.Pairwise.imp ?_ h
  intro a b hab
  simp only [lessCount, decide_eq_false_iff_not] at hab
  omega

/-! ## Lemmas: resolving the peers -/

theorem resolveLoop_fst {σ : Type} (LookupIP : σ → GoString → Except GoString IP × σ)
    (peers : List Peer) (w : σ) (acc : List IP) :
    (resolveLoop LookupIP w peers acc).1
      = acc ++ (lookupOutcomes LookupIP w peers).filterMap resolved := by
  induction peers generalizing w acc with
  | nil => simp [resolveLoop, lookupOutcomes]
  | cons peer rest ih =>
    unfold resolveLoop lookupOutcomes
    rcases hL : LookupIP w peer.RemoteIP with ⟨r, w'⟩
    cases r with
    | error e => simp [ih, resolved]
    | ok asn => simp [ih, resolved]

theorem resolvePeers_eq {σ : Type} (LookupIP : σ → GoString → Except GoString IP × σ)
    (w : σ) (peers : List Peer) :
    resolvePeers LookupIP w peers = (lookupOutcomes LookupIP w peers).filterMap resolved := by
  simp [resolvePeers, resolveLoop_fst]

theorem filterMap_resolved_length (rs : List (Except GoString IP)) :
    (rs.filterMap resolved).length = (rs.filter succeeded).length := by
  induction rs with
  | nil => rfl
  | cons r rs ih =>
    cases r with
    | error e => simpa [resolved, succeeded, List.filterMap_cons, List.filter_cons] using ih
    | ok ip => simpa [resolved, succeeded, List.filterMap_cons, List.filter_cons] using ih

theorem mem_filterMap_resolved (rs : List (Except GoString IP)) (ip : IP) :
    ip ∈ rs.filterMap resolved ↔ Except.ok ip ∈ rs := by
  rw [List.mem_filterMap]
  constructor
  · rintro ⟨r, hr, hres⟩
    cases r with
    | error e => simp [resolved] at hres
    | ok ip' =>
      simp only [resolved, Option.some.injEq] at hres
      subst hres
      exact hr
  · intro h
    exact ⟨Except.ok ip, h, rfl⟩

/-! ## Lemmas: the counting map -/

theorem mapTotal_mapIncr (m : ASNCountMap) (k : Nat) :
    mapTotal (mapIncr m k) = mapTotal m + 1 := by
  induction m with
  | nil => simp [mapIncr, mapTotal]
  | cons kv rest ih =>
    obtain ⟨k', v⟩ := kv
    unfold mapIncr
    simp only [mapTotal] at ih ⊢
    split
    · simp only [List.map_cons, List.sum_cons]; omega
    · simp only [List.map_cons, List.sum_cons, ih]; omega

theorem mem_mapKeys_mapIncr (m : ASNCountMap) (k a : Nat) :
    a ∈ mapKeys (mapIncr m k) ↔ a = k ∨ a ∈ mapKeys m := by
  induction m with
  | nil => simp [mapIncr, mapKeys]
  | cons kv rest ih =>
    obtain ⟨k', v⟩ := kv
    unfold mapIncr
    simp only [mapKeys] at ih ⊢
    split
    · rename_i hk
      have hk' : k' = k := by simpa using hk
      subst hk'
      simp only [List.map_cons, List.mem_cons]
      tauto
    · simp only [List.map_cons, List.mem_cons, ih]
      tauto

theorem nodup_mapKeys_mapIncr (m : ASNCountMap) (k : Nat) (h : (mapKeys m).Nodup) :
    (mapKeys (mapIncr m k)).Nodup := by
  induction m with
  | nil => simp [mapIncr, mapKeys]
  | cons kv rest ih =>
    obtain ⟨k', v⟩ := kv
    have h' : k' ∉ mapKeys rest ∧ (mapKeys rest).Nodup := by
      simpa [mapKeys] using h
    unfold mapIncr
    split
    · simpa [mapKeys] using h
    · rename_i hk
      have hk' : ¬ k' = k := by simpa using hk
      have hmem : k' ∉ mapKeys (mapIncr rest k) := by
        rw [mem_mapKeys_mapIncr]
        rintro (h1 | h1)
        · exact hk' h1
        · exact h'.1 h1
      have := ih h'.2
      simp only [mapKeys, List.map_cons, List.nodup_cons] at hmem this ⊢
      exact ⟨hmem, this⟩

theorem mapGet_mapIncr (m : ASNCountMap) (k a : Nat) :
    mapGet (mapIncr m k) a = mapGet m a + (if k = a then 1 else 0) := by
  induction m with
  | nil =>
    by_cases h : k = a <;> simp [mapIncr, mapGet, h]
  | cons kv rest ih =>
    obtain ⟨k', v⟩ := kv
    unfold mapIncr
    by_cases h1 : k' = k
    · subst h1
      by_cases h2 : k' = a <;> simp [mapGet, h2]
    · by_cases h2 : k' = a
      · subst h2
        have h3 : ¬ k = k' := fun h => h1 h.symm
        simp [mapGet, h1, h3]
      · simp [mapGet, h1, h2, ih]

theorem mapGet_of_mem (m : ASNCountMap) (h : (mapKeys m).Nodup) (k : Nat) (v : Int)
    (hm : (k, v) ∈ m) : mapGet m k = v := by
  induction m with
  | nil => simp at hm
  | cons kv rest ih =>
    obtain ⟨k', v'⟩ := kv
    have h' : k' ∉ mapKeys rest ∧ (mapKeys rest).Nodup := by
      simpa [mapKeys] using h
    rw [List.mem_cons] at hm
    rcases hm with hm | hm
    · simp only [Prod.mk.injEq] at hm
      obtain ⟨h1, h2⟩ := hm
      subst h1 h2
      simp [mapGet]
    · have hk : k ∈ mapKeys rest := List.mem_map_of_mem Prod.fst hm
      have hne : ¬ k' = k := by
        intro h1
        subst h1
        exact h'.1 hk
      simp [mapGet, hne, ih h'.2 hm]

/-- The map after the counting loop started from the map `m`. -/
theorem countFrom_props (ipList : List IP) (m : ASNCountMap) :
    mapTotal (ipList.foldl (fun m ip => mapIncr m ip.ASNum) m) = mapTotal m + ipList.length ∧
    ((mapKeys m).Nodup → (mapKeys (ipList.foldl (fun m ip => mapIncr m ip.ASNum) m)).Nodup) ∧
    (∀ a, a ∈ mapKeys (ipList.foldl (fun m ip => mapIncr m ip.ASNum) m)
        ↔ a ∈ mapKeys m ∨ ∃ ip ∈ ipList, ip.ASNum = a) ∧
    (∀ a, mapGet (ipList.foldl (fun m ip => mapIncr m ip.ASNum) m) a
        = mapGet m a + peersWithASN ipList a) := by
  induction ipList generalizing m with
  | nil => simp [peersWithASN]
  | cons ip rest ih =>
    obtain ⟨h1, h2, h3, h4⟩ := ih (mapIncr m ip.ASNum)
    simp only [List.foldl_cons]
    refine ⟨?_, ?_, ?_, ?_⟩
    · rw [h1, mapTotal_mapIncr, List.length_cons]; push_cast; omega
    · intro hn
      exact h2 (nodup_mapKeys_mapIncr m _ hn)
    · intro a
      rw [h3, mem_mapKeys_mapIncr]
      simp only [List.mem_cons, exists_eq_or_imp]
      constructor
      · rintro ((h | h) | h)
        · exact Or.inr (Or.inl h.symm)
        · exact Or.inl h
        · exact Or.inr (Or.inr h)
      · rintro (h | h | h)
        · exact Or.inl (Or.inr h)
        · exact Or.inl (Or.inl h.symm)
        · exact Or.inr h
    · intro a
      rw [h4, mapGet_mapIncr]
      by_cases hk : ip.ASNum = a
      · simp [peersWithASN, List.filter_cons, hk]; omega
      · simp [peersWithASN, List.filter_cons, hk]

theorem mapTotal_countASNs (ipList : List IP) :
    mapTotal (countASNs ipList) = ipList.length := by
  have h := (countFrom_props ipList []).1
  simpa [countASNs, mapTotal] using h

theorem nodup_mapKeys_countASNs (ipList : List IP) : (mapKeys (countASNs ipList)).Nodup :=
  (countFrom_props ipList []).2.1 (by simp [mapKeys])

theorem mem_mapKeys_countASNs (ipList : List IP) (a : Nat) :
    a ∈ mapKeys (countASNs ipList) ↔ ∃ ip ∈ ipList, ip.ASNum = a := by
  have h := (countFrom_props ipList []).2.2.1 a
  simpa [countASNs, mapKeys] using h

theorem mapGet_countASNs (ipList : List IP) (a : Nat) :
    mapGet (countASNs ipList) a = peersWithASN ipList a := by
  have h := (countFrom_props ipList []).2.2.2 a
  simpa [countASNs, mapGet] using h

theorem totalCount_map_entryInfo (ipList : List IP) (m : ASNCountMap) :
    totalCount (m.map (entryInfo ipList)) = mapTotal m := by
  induction m with
  | nil => rfl
  | cons kv rest ih =>
    simp only [totalCount, mapTotal, List.map_cons, List.sum_cons] at ih ⊢
    rw [ih]
    rfl

theorem map_ASN_entryInfo (ipList : List IP) (m : ASNCountMap) :
    (m.map (entryInfo ipList)).map ASNInfo.ASN = mapKeys m := by
  simp [mapKeys, entryInfo, Function.comp_def]

theorem mem_aggregate_iff (ipList : List IP) (visited : List (Nat × Int))
    (h : visited.Perm (countASNs ipList)) (e : ASNInfo) :
    e ∈ aggregate ipList visited ↔ ∃ kv ∈ countASNs ipList, entryInfo ipList kv = e := by
  rw [List.Perm.mem_iff (aggregate_perm ipList visited h), List.mem_map]

/-! ## Lemmas: names and labels -/

theorem getASName_first (ipList : List IP) (a : Nat) (ip : IP)
    (h : FirstWithASN ipList a ip) : getASName ipList a = ip.ASName := by
  obtain ⟨before, after, rfl, hasn, hbefore⟩ := h
  induction before with
  | nil => simp [getASName, hasn]
  | cons p ps ih =>
    have hp : ¬ p.ASNum = a := hbefore p (List.mem_cons_self _ _)
    have hrest : ∀ q ∈ ps, q.ASNum ≠ a := fun q hq => hbefore q (List.mem_cons_of_mem _ hq)
    simp only [List.cons_append, getASName, beq_iff_eq, hp, if_false]
    exact ih hrest

theorem FirstWithASN.mem {ipList : List IP} {a : Nat} {ip : IP}
    (h : FirstWithASN ipList a ip) : ∃ p ∈ ipList, p.ASNum = a := by
  obtain ⟨before, after, rfl, hasn, _⟩ := h
  exact ⟨ip, by simp, hasn⟩

theorem aggregate_entry_of_first (ipList : List IP) (a : Nat) (ip : IP)
    (hfirst : FirstWithASN ipList a ip) (visited : List (Nat × Int))
    (hvisit : visited.Perm (countASNs ipList)) :
    (∃ e ∈ aggregate ipList visited, e.ASN = a) ∧
      ∀ e ∈ aggregate ipList visited, e.ASN = a → e.ASName = ip.ASName := by
  constructor
  · have hk : a ∈ mapKeys (countASNs ipList) :=
      (mem_mapKeys_countASNs ipList a).2 hfirst.mem
    obtain ⟨kv, hkv, hfst⟩ := List.mem_map.1 hk
    exact ⟨entryInfo ipList kv, (mem_aggregate_iff _ _ hvisit _).2 ⟨kv, hkv, rfl⟩, hfst⟩
  · intro e he hasn
    obtain ⟨kv, _, rfl⟩ := (mem_aggregate_iff _ _ hvisit e).1 he
    have hkv : kv.1 = a := hasn
    show getASName ipList kv.1 = ip.ASName
    rw [hkv]
    exact getASName_first ipList a ip hfirst

theorem safesubstr_eq_labelOf (s : GoString) : safesubstr s = Except.ok (labelOf s) := by
  by_cases h : s.length > 10
  · have h7 : 7 ≤ s.length := by omega
    simp [safesubstr, sliceTo, labelOf, h, h7]
  · simp [safesubstr, labelOf, h]

theorem roundFloat64_exact (m : Nat) (h : m ≤ 2 ^ 53) : roundFloat64 m = m := by
  rcases Nat.lt_or_ge m (2 ^ 53) with hlt | hge
  · unfold roundFloat64
    rw [if_pos hlt]
  · have hm : m = 2 ^ 53 := Nat.le_antisymm h hge
    subst hm
    decide

theorem float64_exact (n : Int) (h : n.natAbs ≤ 2 ^ 53) : float64 n = n := by
  unfold float64
  rw [roundFloat64_exact _ h]
  split <;> omega

theorem chartLoop_eq (l : List ASNInfo) (counts : List Int) (names : List GoString) :
    chartLoop l counts names
      = Except.ok (counts ++ l.map (fun e => float64 e.Count),
          names ++ l.map (fun e => labelOf e.ASName)) := by
  induction l generalizing counts names with
  | nil => simp [chartLoop]
  | cons e rest ih =>
    unfold chartLoop
    rw [safesubstr_eq_labelOf]
    simp [ih]

theorem GenerateBarChart_eq (l : List ASNInfo) :
    GenerateBarChart (Except.ok ()) l
      = Except.ok (BarChart.mk (l.map (fun e => float64 e.Count))
          (l.map (fun e => labelOf e.ASName)) (str "Peers per ASN Chart") (5, 25, 175, 50) 10) := by
  simp [GenerateBarChart, chartLoop_eq]

/-! ## Lemmas: the arrangements of the sample peers -/

theorem perm_pair {α : Type} (l : List α) (p q : α) (h : l.Perm [p, q]) :
    l = [p, q] ∨ l = [q, p] := by
  have hlen := h.length_eq
  rcases l with _ | ⟨x, _ | ⟨y, _ | ⟨z, t⟩⟩⟩
  · simp at hlen
  · simp at hlen
  · have hx : x = p ∨ x = q := by
      have := (List.Perm.mem_iff h).1 (List.mem_cons_self x [y])
      simpa using this
    rcases hx with hx | hx
    · subst hx
      have hy : y = q := by
        have := List.Perm.cons_inv h
        simpa using List.perm_singleton.1 this
      exact Or.inl (by rw [hy])
    · subst hx
      have h' : [x, y].Perm [x, p] := h.trans (List.Perm.swap x p [])
      have hy : y = p := by
        have := List.Perm.cons_inv h'
        simpa using List.perm_singleton.1 this
      exact Or.inr (by rw [hy])
  · simp at hlen

theorem perm_sample (ipList : List IP) (h : ipList.Perm [orgA, orgA, orgA, orgB]) :
    ipList = [orgA, orgA, orgA, orgB] ∨ ipList = [orgA, orgA, orgB, orgA] ∨
      ipList = [orgA, orgB, orgA, orgA] ∨ ipList = [orgB, orgA, orgA, orgA] := by
  have hlen := h.length_eq
  have hcount := h.count_eq orgB
  have hmem : ∀ p ∈ ipList, p = orgA ∨ p = orgB := by
    intro p hp
    have := (List.Perm.mem_iff h).1 hp
    simpa using this
  rcases ipList with _ | ⟨w, _ | ⟨x, _ | ⟨y, _ | ⟨z, _ | ⟨u, t⟩⟩⟩⟩⟩
  · simp at hlen
  · simp at hlen
  · simp at hlen
  · simp at hlen
  · have hw := hmem w (by simp)
    have hx := hmem x (by simp)
    have hy := hmem y (by simp)
    have hz := hmem z (by simp)
    clear hmem hlen h
    rcases hw with rfl | rfl <;> rcases hx with rfl | rfl <;> rcases hy with rfl | rfl <;>
      rcases hz with rfl | rfl <;> revert hcount <;> decide
  · simp at hlen

/-! ## The claims -/

/-- C1: for every peer list and every outcome of the per-peer ASN lookups, the
`Count` fields of the aggregate built in `main` sum to the number of peers whose
lookup succeeded, which is the length of `ipList`; every entry of the aggregate
carries the ASN of a lookup that succeeded, so a failed lookup feeds no entry. -/
theorem aggregate_totalCount_eq_succeeded {σ : Type}
    (LookupIP : σ → GoString → Except GoString IP × σ) (w : σ) (peers : List Peer)
    (visited : List (Nat × Int))
    (hvisit : visited.Perm (countASNs (resolvePeers LookupIP w peers))) :
    totalCount (aggregate (resolvePeers LookupIP w peers) visited)
        = (((lookupOutcomes LookupIP w peers).filter succeeded).length : Int) ∧
      (resolvePeers LookupIP w peers).length
        = ((lookupOutcomes LookupIP w peers).filter succeeded).length ∧
      ∀ e ∈ aggregate (resolvePeers LookupIP w peers) visited,
        ∃ ip, Except.ok ip ∈ lookupOutcomes LookupIP w peers ∧ ip.ASNum = e.ASN := by
  have hlen : (resolvePeers LookupIP w peers).length
      = ((lookupOutcomes LookupIP w peers).filter succeeded).length := by
    rw [resolvePeers_eq, filterMap_resolved_length]
  refine ⟨?_, hlen, ?_⟩
  · have hperm := aggregate_perm _ _ hvisit
    have hsum : totalCount (aggregate (resolvePeers LookupIP w peers) visited)
        = totalCount ((countASNs (resolvePeers LookupIP w peers)).map
            (entryInfo (resolvePeers LookupIP w peers))) := by
      unfold totalCount
      exact List.Perm.sum_eq (hperm.map _)
    rw [hsum, totalCount_map_entryInfo, mapTotal_countASNs, hlen]
  · intro e he
    obtain ⟨kv, hkv, rfl⟩ := (mem_aggregate_iff _ _ hvisit e).1 he
    have hk : kv.1 ∈ mapKeys (countASNs (resolvePeers LookupIP w peers)) :=
      List.mem_map_of_mem Prod.fst hkv
    obtain ⟨ip, hip, hasn⟩ := (mem_mapKeys_countASNs _ _).1 hk
    rw [resolvePeers_eq, mem_filterMap_resolved] at hip
    exact ⟨ip, hip, hasn⟩

theorem aggregate_totalCount_eq_succeeded_witness :
    [(200, 1), (100, 2)].Perm (countASNs (resolvePeers sampleLookup () samplePeers)) ∧
      (totalCount (aggregate (resolvePeers sampleLookup () samplePeers) [(200, 1), (100, 2)])
        = (((lookupOutcomes sampleLookup () samplePeers).filter succeeded).length : Int) ∧
      (resolvePeers sampleLookup () samplePeers).length
        = ((lookupOutcomes sampleLookup () samplePeers).filter succeeded).length ∧
      ∀ e ∈ aggregate (resolvePeers sampleLookup () samplePeers) [(200, 1), (100, 2)],
        ∃ ip, Except.ok ip ∈ lookupOutcomes sampleLookup () samplePeers ∧ ip.ASNum = e.ASN) :=
  ⟨by decide, aggregate_totalCount_eq_succeeded sampleLookup () samplePeers
    [(200, 1), (100, 2)] (by decide)⟩

/-- C2: for every list of resolved peers and every order in which the map is
walked (indeed for every sequence of entries handed to the loop), the aggregate
after the sort is in descending order of `Count`: at adjacent positions `i`,
`i+1` the count at `i` is at least the count at `i+1`. -/
theorem aggregate_sorted_desc (ipList : List IP) (visited : List (Nat × Int))
    (i : Nat) (a b : ASNInfo)
    (ha : (aggregate ipList visited)[i]? = some a)
    (hb : (aggregate ipList visited)[i + 1]? = some b) :
    a.Count ≥ b.Count := by
  obtain ⟨hi, rfl⟩ := List.getElem?_eq_some.1 ha
  obtain ⟨hj, rfl⟩ := List.getElem?_eq_some.1 hb
  exact List.pairwise_iff_getElem.1 (aggregate_pairwise ipList visited) i (i + 1) hi hj
    (Nat.lt_succ_self i)

theorem aggregate_sorted_desc_witness :
    (aggregate [orgB, orgA, orgA, orgA] [(200, 1), (100, 3)])[0]?
        = some (ASNInfo.mk 100 (str "ExampleOrgLongName") 3) ∧
      (aggregate [orgB, orgA, orgA, orgA] [(200, 1), (100, 3)])[0 + 1]?
        = some (ASNInfo.mk 200 (str "Short") 1) ∧
      (ASNInfo.mk 100 (str "ExampleOrgLongName") 3).Count
        ≥ (ASNInfo.mk 200 (str "Short") 1).Count :=
  ⟨by decide, by decide,
    aggregate_sorted_desc [orgB, orgA, orgA, orgA] [(200, 1), (100, 3)] 0 _ _
      (by decide) (by decide)⟩

/-- C3: for every name `s`, `safesubstr s` returns `s` unchanged when `s` has at
most 10 bytes (Go's `len`), and when `s` has more than 10 it returns the first
7 bytes of `s` (Go's `s[:7]`) followed by "...", of total length 10; the slice
never panics. -/
theorem safesubstr_spec (s : GoString) :
    (s.length ≤ 10 → safesubstr s = Except.ok s) ∧
      (10 < s.length →
        safesubstr s = Except.ok (s.take 7 ++ str "...") ∧
        (s.take 7 ++ str "...").length = 10) := by
  constructor
  · intro h
    have h' : ¬ s.length > 10 := by omega
    simp [safesubstr, h']
  · intro h
    have h7 : 7 ≤ s.length := by omega
    have hdots : (str "...").length = 3 := by decide
    refine ⟨?_, ?_⟩
    · simp [safesubstr, sliceTo, h, h7]
    · rw [List.length_append, List.length_take, hdots]
      omega

theorem safesubstr_spec_witness :
    safesubstr (str "Short") = Except.ok (str "Short") ∧
      safesubstr (str "ExampleOrgLongName") = Except.ok (str "Example...") ∧
      (str "Example...").length = 10 :=
  ⟨(safesubstr_spec (str "Short")).1 (by decide),
    ((safesubstr_spec (str "ExampleOrgLongName")).2 (by decide)).1,
    ((safesubstr_spec (str "ExampleOrgLongName")).2 (by decide)).2⟩

/-- The test `rpcURL == ""` of line 112 is made after "/net_info" has been
appended, so it never holds and the default of line 113 is never taken. -/
theorem rpcURL_eq_append (env : Environ) :
    rpcURL env = Getenv env (str "RPC_URL") ++ str "/net_info" := by
  have hne : (Getenv env (str "RPC_URL") ++ str "/net_info" == []) = false := by
    have hlen : (Getenv env (str "RPC_URL") ++ str "/net_info").length ≠ 0 := by
      have h9 : (str "/net_info").length = 9 := by decide
      rw [List.length_append, h9]
      omega
    cases hx : Getenv env (str "RPC_URL") ++ str "/net_info" with
    | nil => rw [hx] at hlen; simp at hlen
    | cons b bs => rfl
  simp only [rpcURL, hne]
  rfl

/-- C4 (the code at the failing input): with `RPC_URL` absent, and with
`RPC_URL` set to the empty string, the URL `main` passes to `QueryRPC` is
"/net_info", which is not "http://localhost:26657/net_info". -/
theorem rpcURL_unset_is_bare_path :
    rpcURL (fun _ => none) = str "/net_info" ∧
      rpcURL (fun key => if key = str "RPC_URL" then some [] else none) = str "/net_info" ∧
      str "/net_info" ≠ str "http://localhost:26657/net_info" := by
  decide

/-- C5: for every list of resolved peers and every order of walking the map,
the aggregate has exactly one entry per distinct ASN of the list: no ASN is in
two entries, the ASNs of the entries are the ASNs occurring in the list, and
the `Count` of each entry is the number of resolved peers carrying its ASN. -/
theorem aggregate_one_entry_per_asn (ipList : List IP) (visited : List (Nat × Int))
    (hvisit : visited.Perm (countASNs ipList)) :
    ((aggregate ipList visited).map ASNInfo.ASN).Nodup ∧
      (∀ a, a ∈ (aggregate ipList visited).map ASNInfo.ASN ↔ ∃ ip ∈ ipList, ip.ASNum = a) ∧
      ∀ e ∈ aggregate ipList visited, e.Count = (peersWithASN ipList e.ASN : Int) := by
  have hperm := aggregate_perm ipList visited hvisit
  have hkeys : ((aggregate ipList visited).map ASNInfo.ASN).Perm (mapKeys (countASNs ipList)) := by
    rw [← map_ASN_entryInfo ipList]
    exact hperm.map _
  refine ⟨?_, ?_, ?_⟩
  · exact (List.Perm.nodup_iff hkeys).2 (nodup_mapKeys_countASNs ipList)
  · intro a
    rw [List.Perm.mem_iff hkeys, mem_mapKeys_countASNs]
  · intro e he
    obtain ⟨kv, hkv, rfl⟩ := (mem_aggregate_iff _ _ hvisit e).1 he
    obtain ⟨k, v⟩ := kv
    have hget := mapGet_of_mem _ (nodup_mapKeys_countASNs ipList) k v hkv
    rw [mapGet_countASNs] at hget
    exact hget.symm

theorem aggregate_one_entry_per_asn_witness :
    [(200, 1), (100, 3)].Perm (countASNs [orgA, orgB, orgA, orgA]) ∧
      (((aggregate [orgA, orgB, orgA, orgA] [(200, 1), (100, 3)]).map ASNInfo.ASN).Nodup ∧
      (∀ a, a ∈ (aggregate [orgA, orgB, orgA, orgA] [(200, 1), (100, 3)]).map ASNInfo.ASN
        ↔ ∃ ip ∈ [orgA, orgB, orgA, orgA], ip.ASNum = a) ∧
      ∀ e ∈ aggregate [orgA, orgB, orgA, orgA] [(200, 1), (100, 3)],
        e.Count = (peersWithASN [orgA, orgB, orgA, orgA] e.ASN : Int)) :=
  ⟨by decide, aggregate_one_entry_per_asn [orgA, orgB, orgA, orgA] [(200, 1), (100, 3)]
    (by decide)⟩

/-- C6: first seen wins.  For every list of resolved peers and every ASN `a`
occurring in it, with `ip` the earliest element of the list whose `ASNum` is
`a`: `getASName ipList a` returns the `ASName` of `ip`, and for every order of
walking the map the aggregate has an entry for `a` and every entry for `a`
carries that name, whatever names later peers of the same ASN have. -/
theorem getASName_first_seen_wins (ipList : List IP) (a : Nat) (ip : IP)
    (hfirst : FirstWithASN ipList a ip) :
    getASName ipList a = ip.ASName ∧
      ∀ visited : List (Nat × Int), visited.Perm (countASNs ipList) →
        (∃ e ∈ aggregate ipList visited, e.ASN = a) ∧
        ∀ e ∈ aggregate ipList visited, e.ASN = a → e.ASName = ip.ASName :=
  ⟨getASName_first ipList a ip hfirst,
    fun visited hvisit => aggregate_entry_of_first ipList a ip hfirst visited hvisit⟩

theorem getASName_first_seen_wins_witness :
    FirstWithASN renamedPeers 100 (IP.mk 100 (str "First")) ∧
      (getASName renamedPeers 100 = (IP.mk 100 (str "First")).ASName ∧
      ∀ visited : List (Nat × Int), visited.Perm (countASNs renamedPeers) →
        (∃ e ∈ aggregate renamedPeers visited, e.ASN = 100) ∧
        ∀ e ∈ aggregate renamedPeers visited, e.ASN = 100 →
          e.ASName = (IP.mk 100 (str "First")).ASName) :=
  have hfirst : FirstWithASN renamedPeers 100 (IP.mk 100 (str "First")) :=
    ⟨[], [IP.mk 200 (str "Other"), IP.mk 100 (str "Second")], rfl, rfl, by simp⟩
  ⟨hfirst, getASName_first_seen_wins renamedPeers 100 _ hfirst⟩

/-- C7 (as stated, refuted): the single resolved peer of ASN 100 has an empty
name; the aggregate is the one entry for ASN 100 with the empty name, and no
entry of it is named "Unknown". -/
theorem nameless_asn_not_Unknown :
    FirstWithASN namelessPeers 100 (IP.mk 100 []) ∧
      aggregate namelessPeers (countASNs namelessPeers) = [ASNInfo.mk 100 [] 1] ∧
      ∀ e ∈ aggregate namelessPeers (countASNs namelessPeers), e.ASName ≠ str "Unknown" :=
  ⟨⟨[], [], rfl, rfl, by simp⟩, by decide, by decide⟩

/-- C7 (amended): for every list of resolved peers and every order of walking
the map, an ASN whose lookup succeeded but returned no name (an empty `ASName`
on its first resolved peer) appears in the aggregate, and every entry for it
has the empty display name, which is not "Unknown". -/
theorem nameless_asn_keeps_empty_name (ipList : List IP) (visited : List (Nat × Int))
    (a : Nat) (ip : IP)
    (hvisit : visited.Perm (countASNs ipList))
    (hfirst : FirstWithASN ipList a ip) (hname : ip.ASName = []) :
    (∃ e ∈ aggregate ipList visited, e.ASN = a) ∧
      ∀ e ∈ aggregate ipList visited, e.ASN = a →
        e.ASName = [] ∧ e.ASName ≠ str "Unknown" := by
  have h := aggregate_entry_of_first ipList a ip hfirst visited hvisit
  rw [hname] at h
  refine ⟨h.1, ?_⟩
  intro e he hasn
  have hempty := h.2 e he hasn
  refine ⟨hempty, ?_⟩
  rw [hempty]
  decide

theorem nameless_asn_keeps_empty_name_witness :
    [(100, 1)].Perm (countASNs namelessPeers) ∧
      FirstWithASN namelessPeers 100 (IP.mk 100 []) ∧
      (IP.mk 100 []).ASName = [] ∧
      ((∃ e ∈ aggregate namelessPeers [(100, 1)], e.ASN = 100) ∧
      ∀ e ∈ aggregate namelessPeers [(100, 1)], e.ASN = 100 →
        e.ASName = [] ∧ e.ASName ≠ str "Unknown") :=
  have hfirst : FirstWithASN namelessPeers 100 (IP.mk 100 []) := ⟨[], [], rfl, rfl, by simp⟩
  ⟨by decide, hfirst, rfl,
    nameless_asn_keeps_empty_name namelessPeers [(100, 1)] 100 (IP.mk 100 [])
      (by decide) hfirst rfl⟩

/-- C8 (as stated, refuted): for three peers of ASN 100 named
"ExampleOrgLongName" and one of ASN 200 named "Short", the aggregate of `main`
carries the full name "ExampleOrgLongName", so it is not the list with the
name "Example...". -/
theorem sample_aggregate_keeps_full_name :
    aggregate [orgA, orgA, orgA, orgB] (countASNs [orgA, orgA, orgA, orgB])
        = [ASNInfo.mk 100 (str "ExampleOrgLongName") 3, ASNInfo.mk 200 (str "Short") 1] ∧
      aggregate [orgA, orgA, orgA, orgB] (countASNs [orgA, orgA, orgA, orgB])
        ≠ [ASNInfo.mk 100 (str "Example...") 3, ASNInfo.mk 200 (str "Short") 1] := by
  decide

/-- C8 (amended): for the three peers of ASN 100 named "ExampleOrgLongName" and
the one of ASN 200 named "Short", in any order, and for every order of walking
the map, the aggregate of `main` is exactly
`[{100, "ExampleOrgLongName", 3}, {200, "Short", 1}]`, and the chart built from
it has `Data` `[3, 1]` and `Labels` `["Example...", "Short"]`. -/
theorem sample_aggregate_and_chart (ipList : List IP) (visited : List (Nat × Int))
    (hpeers : ipList.Perm [orgA, orgA, orgA, orgB])
    (hvisit : visited.Perm (countASNs ipList)) :
    aggregate ipList visited
        = [ASNInfo.mk 100 (str "ExampleOrgLongName") 3, ASNInfo.mk 200 (str "Short") 1] ∧
      GenerateBarChart (Except.ok ()) (aggregate ipList visited)
        = Except.ok (BarChart.mk [3, 1] [str "Example...", str "Short"]
            (str "Peers per ASN Chart") (5, 25, 175, 50) 10) := by
  rcases perm_sample ipList hpeers with rfl | rfl | rfl | rfl
  · have hm : countASNs [orgA, orgA, orgA, orgB] = [(100, 3), (200, 1)] := by decide
    rw [hm] at hvisit
    rcases perm_pair visited _ _ hvisit with rfl | rfl <;> decide
  · have hm : countASNs [orgA, orgA, orgB, orgA] = [(100, 3), (200, 1)] := by decide
    rw [hm] at hvisit
    rcases perm_pair visited _ _ hvisit with rfl | rfl <;> decide
  · have hm : countASNs [orgA, orgB, orgA, orgA] = [(100, 3), (200, 1)] := by decide
    rw [hm] at hvisit
    rcases perm_pair visited _ _ hvisit with rfl | rfl <;> decide
  · have hm : countASNs [orgB, orgA, orgA, orgA] = [(200, 1), (100, 3)] := by decide
    rw [hm] at hvisit
    rcases perm_pair visited _ _ hvisit with rfl | rfl <;> decide

theorem sample_aggregate_and_chart_witness :
    [orgA, orgB, orgA, orgA].Perm [orgA, orgA, orgA, orgB] ∧
      [(200, 1), (100, 3)].Perm (countASNs [orgA, orgB, orgA, orgA]) ∧
      (aggregate [orgA, orgB, orgA, orgA] [(200, 1), (100, 3)]
        = [ASNInfo.mk 100 (str "ExampleOrgLongName") 3, ASNInfo.mk 200 (str "Short") 1] ∧
      GenerateBarChart (Except.ok ()) (aggregate [orgA, orgB, orgA, orgA] [(200, 1), (100, 3)])
        = Except.ok (BarChart.mk [3, 1] [str "Example...", str "Short"]
            (str "Peers per ASN Chart") (5, 25, 175, 50) 10)) :=
  ⟨by decide, by decide,
    sample_aggregate_and_chart [orgA, orgB, orgA, orgA] [(200, 1), (100, 3)]
      (by decide) (by decide)⟩

/-- C9: for every `asnInfoList`, `GenerateBarChart` (the terminal initialised)
builds a chart with one bar per entry in the same order: `Data` and `Labels`
both have the length of `asnInfoList`; at every position `i`, `Data` holds
`float64` of the `Count` of entry `i`, which is that `Count` itself whenever its
magnitude is at most `2^53`, and `Labels` holds what `safesubstr` returns for
the `ASName` of entry `i`. -/
theorem GenerateBarChart_one_bar_per_entry (asnInfoList : List ASNInfo) :
    ∃ bc, GenerateBarChart (Except.ok ()) asnInfoList = Except.ok bc ∧
      bc.Data.length = asnInfoList.length ∧
      bc.Labels.length = asnInfoList.length ∧
      ∀ (i : Nat) (e : ASNInfo), asnInfoList[i]? = some e →
        bc.Data[i]? = some (float64 e.Count) ∧
        (e.Count.natAbs ≤ 2 ^ 53 → bc.Data[i]? = some e.Count) ∧
        ∃ label, safesubstr e.ASName = Except.ok label ∧ bc.Labels[i]? = some label := by
  refine ⟨_, GenerateBarChart_eq asnInfoList, by simp, by simp, ?_⟩
  intro i e hie
  have hdata : (asnInfoList.map (fun e => float64 e.Count))[i]? = some (float64 e.Count) := by
    rw [List.getElem?_map, hie]
    rfl
  refine ⟨hdata, ?_, labelOf e.ASName, safesubstr_eq_labelOf _, ?_⟩
  · intro hexact
    rw [← float64_exact _ hexact]
    exact hdata
  · show (asnInfoList.map (fun e => labelOf e.ASName))[i]? = some (labelOf e.ASName)
    rw [List.getElem?_map, hie]
    rfl

theorem GenerateBarChart_one_bar_per_entry_witness :
    ∃ bc, GenerateBarChart (Except.ok ()) [ASNInfo.mk 100 (str "ExampleOrgLongName") 3]
        = Except.ok bc ∧
      bc.Data.length = [ASNInfo.mk 100 (str "ExampleOrgLongName") 3].length ∧
      bc.Labels.length = [ASNInfo.mk 100 (str "ExampleOrgLongName") 3].length ∧
      ∀ (i : Nat) (e : ASNInfo), [ASNInfo.mk 100 (str "ExampleOrgLongName") 3][i]? = some e →
        bc.Data[i]? = some (float64 e.Count) ∧
        (e.Count.natAbs ≤ 2 ^ 53 → bc.Data[i]? = some e.Count) ∧
        ∃ label, safesubstr e.ASName = Except.ok label ∧ bc.Labels[i]? = some label :=
  GenerateBarChart_one_bar_per_entry [ASNInfo.mk 100 (str "ExampleOrgLongName") 3]

/-- C10: for every peer list, the empty one included, if every lookup fails
then `ipList` is empty, the aggregate is empty for every order of walking the
(empty) map, and `GenerateBarChart` returns a chart, without a panic, whose
`Data` and `Labels` are both empty. -/
theorem all_lookups_fail_empty_chart {σ : Type}
    (LookupIP : σ → GoString → Except GoString IP × σ) (w : σ) (peers : List Peer)
    (visited : List (Nat × Int))
    (hfail : ∀ r ∈ lookupOutcomes LookupIP w peers, succeeded r = false)
    (hvisit : visited.Perm (countASNs (resolvePeers LookupIP w peers))) :
    resolvePeers LookupIP w peers = [] ∧
      aggregate (resolvePeers LookupIP w peers) visited = [] ∧
      ∃ bc, GenerateBarChart (Except.ok ()) (aggregate (resolvePeers LookupIP w peers) visited)
          = Except.ok bc ∧ bc.Data = [] ∧ bc.Labels = [] := by
  have hnil : resolvePeers LookupIP w peers = [] := by
    rw [resolvePeers_eq, List.filterMap_eq_nil_iff]
    intro r hr
    have := hfail r hr
    cases r with
    | error e => rfl
    | ok ip => simp [succeeded] at this
  rw [hnil] at hvisit ⊢
  have hv : visited = [] := List.perm_nil.1 hvisit
  subst hv
  refine ⟨rfl, rfl, _, GenerateBarChart_eq _, ?_, ?_⟩ <;> rfl

theorem all_lookups_fail_empty_chart_witness :
    (∀ r ∈ lookupOutcomes failingLookup () samplePeers, succeeded r = false) ∧
      ([] : List (Nat × Int)).Perm (countASNs (resolvePeers failingLookup () samplePeers)) ∧
      (resolvePeers failingLookup () samplePeers = [] ∧
      aggregate (resolvePeers failingLookup () samplePeers) [] = [] ∧
      ∃ bc, GenerateBarChart (Except.ok ()) (aggregate (resolvePeers failingLookup () samplePeers) [])
          = Except.ok bc ∧ bc.Data = [] ∧ bc.Labels = []) :=
  ⟨by decide, by decide,
    all_lookups_fail_empty_chart failingLookup () samplePeers [] (by decide) (by decide)⟩

end PeerChecker
